import Mathlib

/-!
Shallow embedding of the `wiggum_orchestrator` service-orchestration core
(`config.py`, `service_state.py`, and — where the module is absent from the
tree — the circuit breaker and scheduler behaviour modelled from the spec),
together with proofs of the specification's claims about it.

Python floats used as timestamps are embedded as rationals (`ℚ`); Python's
unbounded `int` as `ℤ`; `time.time()` and `os.kill(pid, 0)` liveness probes
are passed in explicitly (`now : ℚ`, `alive : ℤ → Bool`); the state file is
an explicit document value rather than bytes on disk.
-/

namespace Wiggum

/-- Python `int()` applied to a (rational-valued) float: truncation toward zero. -/
def pyInt (q : ℚ) : ℤ := if q < 0 then ⌈q⌉ else ⌊q⌋

/-- One opaque queue item (a JSON object, passed through uninterpreted). -/
abbrev QueueItem := List (String × String)

/-- In-memory state for one service (`service_state.py`, dataclass `ServiceEntry`). -/
structure ServiceEntry where
  last_run : ℚ := 0
  status : String := "stopped"
  run_count : ℤ := 0
  fail_count : ℤ := 0
  pid : Option ℤ := none
  success_count : ℤ := 0
  last_success : ℚ := 0
  retry_count : ℤ := 0
  backoff_until : ℚ := 0
  circuit_state : String := "closed"
  circuit_opened_at : ℚ := 0
  half_open_attempts : ℤ := 0
  total_duration_ms : ℤ := 0
  last_duration_ms : ℤ := 0
  min_duration_ms : ℤ := 0
  max_duration_ms : ℤ := 0
  queue : List QueueItem := []
deriving DecidableEq

instance : Inhabited ServiceEntry := ⟨{}⟩

/-- `ServiceState.mark_started` restricted to the one entry it mutates. -/
def markStartedEntry (e : ServiceEntry) (pid : Option ℤ) (now : ℚ) : ServiceEntry :=
  { e with status := "running", last_run := now, run_count := e.run_count + 1, pid := pid }

/-- `ServiceState.mark_completed` restricted to the one entry it mutates:
reset failure bookkeeping, stamp the success, and reset the circuit breaker
(to `closed`, zeroing `half_open_attempts`) when it is not already closed. -/
def markCompletedEntry (e : ServiceEntry) (now : ℚ) : ServiceEntry :=
  let e := { e with status := "stopped", fail_count := 0, retry_count := 0,
                    backoff_until := 0, last_success := now,
                    success_count := e.success_count + 1, pid := none }
  if e.circuit_state ≠ "closed" then
    { e with circuit_state := "closed", half_open_attempts := 0 }
  else e

/-- `ServiceState.mark_failed` restricted to the one entry it mutates. -/
def markFailedEntry (e : ServiceEntry) : ServiceEntry :=
  { e with status := "failed", fail_count := e.fail_count + 1, pid := none }

/-- `ServiceState.mark_skipped` restricted to the one entry it mutates. -/
def markSkippedEntry (e : ServiceEntry) : ServiceEntry :=
  { e with status := "skipped" }

/-- `ServiceState.record_execution` restricted to the one entry it mutates.
The `exit_code` argument is accepted and ignored, as in the source. -/
def recordExecutionEntry (e : ServiceEntry) (duration_ms exit_code : ℤ) : ServiceEntry :=
  let e := { e with last_duration_ms := duration_ms,
                    total_duration_ms := e.total_duration_ms + duration_ms }
  let e := if e.min_duration_ms = 0 ∨ duration_ms < e.min_duration_ms then
             { e with min_duration_ms := duration_ms }
           else e
  if duration_ms > e.max_duration_ms then { e with max_duration_ms := duration_ms } else e

/-- The in-memory store: insertion-ordered map from service id to entry
(Python dict `_entries`) plus the `_dirty` flag. -/
structure ServiceState where
  entries : List (String × ServiceEntry) := []
  dirty : Bool := false
deriving DecidableEq

/-- The value `ServiceState.get` returns (a fresh default entry when absent). -/
def ServiceState.getEntry (st : ServiceState) (sid : String) : ServiceEntry :=
  (st.entries.lookup sid).getD {}

/-- The insertion side effect of `ServiceState.get`: a missing id is created
with default values, at the end of the (insertion-ordered) dict. -/
def ServiceState.ensure (st : ServiceState) (sid : String) : ServiceState :=
  if (st.entries.lookup sid).isSome then st
  else { st with entries := st.entries ++ [(sid, {})] }

/-- Fetch-then-mutate of one entry (the `entry = self.get(sid); entry.x = ...`
pattern of every lifecycle mark). -/
def ServiceState.update (st : ServiceState) (sid : String)
    (f : ServiceEntry → ServiceEntry) : ServiceState :=
  let st := st.ensure sid
  { st with entries := st.entries.map (fun p => if p.1 = sid then (p.1, f p.2) else p) }

/-- `ServiceState.mark_started`. -/
def ServiceState.markStarted (st : ServiceState) (sid : String)
    (pid : Option ℤ) (now : ℚ) : ServiceState :=
  { st.update sid (markStartedEntry · pid now) with dirty := true }

/-- `ServiceState.mark_completed`. -/
def ServiceState.markCompleted (st : ServiceState) (sid : String) (now : ℚ) : ServiceState :=
  { st.update sid (markCompletedEntry · now) with dirty := true }

/-- `ServiceState.mark_failed`. -/
def ServiceState.markFailed (st : ServiceState) (sid : String) : ServiceState :=
  { st.update sid markFailedEntry with dirty := true }

/-- `ServiceState.mark_skipped`. Note: the source sets the status but does
not touch `self._dirty`. -/
def ServiceState.markSkipped (st : ServiceState) (sid : String) : ServiceState :=
  st.update sid markSkippedEntry

/-- `ServiceState.record_execution`. -/
def ServiceState.recordExecution (st : ServiceState) (sid : String)
    (duration_ms exit_code : ℤ) : ServiceState :=
  { st.update sid (recordExecutionEntry · duration_ms exit_code) with dirty := true }

/-- `ServiceState.set_backoff`. -/
def ServiceState.setBackoff (st : ServiceState) (sid : String)
    (duration : ℚ) (now : ℚ) : ServiceState :=
  { st.update sid (fun e => { e with backoff_until := now + duration }) with dirty := true }

/-- `ServiceState.is_in_backoff`. -/
def ServiceState.isInBackoff (st : ServiceState) (sid : String) (now : ℚ) : Bool :=
  decide (now < ((st.ensure sid).getEntry sid).backoff_until)

/-- `ServiceState.is_running`: true only for a `running` status whose pid the
liveness probe (`os.kill(pid, 0)`) confirms; an unconfirmed pid is corrected
to `stopped`/`None` as a side effect, without touching the dirty flag. -/
def ServiceState.isRunning (st : ServiceState) (sid : String)
    (alive : ℤ → Bool) : Bool × ServiceState :=
  let st := st.ensure sid
  let e := st.getEntry sid
  if e.status ≠ "running" then (false, st)
  else
    match e.pid with
    | none => (false, st)
    | some p =>
      if alive p then (true, st)
      else (false, st.update sid (fun e => { e with status := "stopped", pid := none }))

/-- The persisted `circuit` sub-object. Fields are `Option` because `restore`
reads each one with `.get(key, default)`. -/
structure SavedCircuit where
  state : Option String := none
  opened_at : Option ℤ := none
  half_open_attempts : Option ℤ := none
deriving DecidableEq

/-- The persisted `metrics` sub-object. -/
structure SavedMetrics where
  total_duration_ms : Option ℤ := none
  success_count : Option ℤ := none
  last_duration_ms : Option ℤ := none
  min_duration_ms : Option ℤ := none
  max_duration_ms : Option ℤ := none
deriving DecidableEq

/-- One service's record in the persisted document. A `pid` of `none` covers
both JSON `null` and a missing key, exactly as `raw.get("pid")` does. -/
structure SavedService where
  last_run : Option ℤ := none
  status : Option String := none
  run_count : Option ℤ := none
  fail_count : Option ℤ := none
  pid : Option ℤ := none
  circuit : Option SavedCircuit := none
  metrics : Option SavedMetrics := none
  queue : Option (List QueueItem) := none
  backoff_until : Option ℤ := none
  retry_count : Option ℤ := none
  last_success : Option ℤ := none
deriving DecidableEq

/-- The persisted state document (`state.json`). -/
structure SavedDoc where
  version : String
  saved_at : ℤ
  services : Option (List (String × SavedService))
deriving DecidableEq

/-- The per-service dict written by `ServiceState.save`: timestamps pass
through `int()` (truncation), everything else verbatim. -/
def saveEntry (e : ServiceEntry) : SavedService :=
  { last_run := some (pyInt e.last_run),
    status := some e.status,
    run_count := some e.run_count,
    fail_count := some e.fail_count,
    pid := e.pid,
    circuit := some { state := some e.circuit_state,
                      opened_at := some (pyInt e.circuit_opened_at),
                      half_open_attempts := some e.half_open_attempts },
    metrics := some { total_duration_ms := some e.total_duration_ms,
                      success_count := some e.success_count,
                      last_duration_ms := some e.last_duration_ms,
                      min_duration_ms := some e.min_duration_ms,
                      max_duration_ms := some e.max_duration_ms },
    queue := some e.queue,
    backoff_until := some (pyInt e.backoff_until),
    retry_count := some e.retry_count,
    last_success := some (pyInt e.last_success) }

/-- The full document written by `ServiceState.save`. -/
def saveDoc (st : ServiceState) (now : ℤ) : SavedDoc :=
  { version := "1.0", saved_at := now,
    services := some (st.entries.map (fun p => (p.1, saveEntry p.2))) }

/-- `ServiceState.save`: produce the document (the atomic write) and clear
the dirty flag. -/
def ServiceState.save (st : ServiceState) (now : ℤ) : SavedDoc × ServiceState :=
  (saveDoc st now, { st with dirty := false })

/-- `ServiceState.save_if_dirty`: write (`some` document) only when dirty. -/
def ServiceState.saveIfDirty (st : ServiceState) (now : ℤ) : Option SavedDoc × ServiceState :=
  if st.dirty then
    let r := st.save now
    (some r.1, r.2)
  else (none, st)

/-- The field assignments `restore` performs on the fetched entry for one
service record, including the running-pid revalidation. -/
def restoreEntry (alive : ℤ → Bool) (raw : SavedService) (e : ServiceEntry) : ServiceEntry :=
  let circuit := raw.circuit.getD {}
  let metrics := raw.metrics.getD {}
  let e := { e with
    last_run := ((raw.last_run.getD 0 : ℤ) : ℚ),
    run_count := raw.run_count.getD 0,
    fail_count := raw.fail_count.getD 0,
    last_success := ((raw.last_success.getD 0 : ℤ) : ℚ),
    retry_count := raw.retry_count.getD 0,
    backoff_until := ((raw.backoff_until.getD 0 : ℤ) : ℚ),
    success_count := metrics.success_count.getD 0,
    total_duration_ms := metrics.total_duration_ms.getD 0,
    last_duration_ms := metrics.last_duration_ms.getD 0,
    min_duration_ms := metrics.min_duration_ms.getD 0,
    max_duration_ms := metrics.max_duration_ms.getD 0,
    queue := raw.queue.getD [],
    circuit_state := circuit.state.getD "closed",
    circuit_opened_at := ((circuit.opened_at.getD 0 : ℤ) : ℚ),
    half_open_attempts := circuit.half_open_attempts.getD 0 }
  match raw.status.getD "stopped", raw.pid with
  | "running", some p =>
    if alive p then { e with status := "running", pid := some p }
    else { e with status := "stopped", pid := none }
  | _, _ => { e with status := "stopped", pid := none }

/-- What `restore` finds at the state-file path: `none` = file missing,
`some none` = present but unreadable or invalid JSON, `some (some doc)` =
a parsed document. -/
abbrev RestoreInput := Option (Option SavedDoc)

/-- `ServiceState.restore`: `False` (and no change) on a missing or invalid
file, otherwise repopulate each listed service from its record. -/
def ServiceState.restore (st : ServiceState) (input : RestoreInput)
    (alive : ℤ → Bool) : Bool × ServiceState :=
  match input with
  | none => (false, st)
  | some none => (false, st)
  | some (some doc) =>
    (true, (doc.services.getD []).foldl
      (fun acc p => acc.update p.1 (restoreEntry alive p.2)) st)

/-- The raw `triggers` mapping (`config.py`): lists of dependency ids, read
with `.get(key, [])`. -/
structure Triggers where
  on_complete : List String := []
  on_failure : List String := []
  on_finish : List String := []
deriving DecidableEq

/-- The `schedule` dict, restricted to the keys the code reads or writes;
each is `Option` because the code reads them with `.get(key, default)`. -/
structure Schedule where
  stype : Option String := none
  interval : Option ℤ := none
  jitter : Option ℤ := none
  run_on_startup : Option Bool := none
  trigger : Option (List String) := none
deriving DecidableEq

/-- The `execution` dict, restricted to the keys the code reads. -/
structure Execution where
  etype : Option String := none
  function : Option String := none
  command : Option String := none
deriving DecidableEq

/-- The `concurrency` dict. -/
structure Concurrency where
  max_instances : Option ℤ := none
  if_running : Option String := none
deriving DecidableEq

/-- The optional `condition` dict. -/
structure Condition where
  env_equals : List (String × String) := []
  env_not_equals : List (String × String) := []
  file_exists : Option String := none
deriving DecidableEq

/-- The optional `circuit_breaker` dict. -/
structure CircuitBreakerConfig where
  enabled : Option Bool := none
  threshold : Option ℤ := none
  cooldown : Option ℤ := none
deriving DecidableEq

/-- The `restart_policy` dict. -/
structure RestartPolicy where
  on_failure : Option String := none
  max_retries : Option ℤ := none
deriving DecidableEq

/-- `config.py` dataclass `ServiceConfig`, with its field defaults. -/
structure ServiceConfig where
  id : String
  description : String := ""
  phase : String := "periodic"
  order : ℤ := 0
  enabled : Bool := true
  required : Bool := false
  schedule : Schedule := { stype := some "tick" }
  execution : Execution := {}
  concurrency : Concurrency := { max_instances := some 1, if_running := some "skip" }
  condition : Option Condition := none
  circuit_breaker : Option CircuitBreakerConfig := none
  triggers : Option Triggers := none
  timeout : ℤ := 300
  restart_policy : RestartPolicy := { on_failure := some "skip", max_retries := some 2 }
deriving DecidableEq

/-- Property `ServiceConfig.schedule_type`. -/
def ServiceConfig.schedule_type (s : ServiceConfig) : String :=
  s.schedule.stype.getD "tick"

/-- Property `ServiceConfig.cb_enabled`. -/
def ServiceConfig.cb_enabled (s : ServiceConfig) : Bool :=
  match s.circuit_breaker with
  | none => false
  | some c => c.enabled.getD false

/-- Property `ServiceConfig.cb_threshold`. -/
def ServiceConfig.cb_threshold (s : ServiceConfig) : ℤ :=
  match s.circuit_breaker with
  | none => 5
  | some c => c.threshold.getD 5

/-- Property `ServiceConfig.cb_cooldown`. -/
def ServiceConfig.cb_cooldown (s : ServiceConfig) : ℤ :=
  match s.circuit_breaker with
  | none => 300
  | some c => c.cooldown.getD 300

/-- The `trigger_list` built by `_normalize_triggers` for one service:
`on_complete` → `service.succeeded:<dep>`, `on_failure` → `service.failed:<dep>`,
`on_finish` → `service.completed:<dep>`, concatenated in that order. -/
def triggerPatterns (t : Triggers) : List String :=
  t.on_complete.map (fun sid => "service.succeeded:" ++ sid) ++
  t.on_failure.map (fun sid => "service.failed:" ++ sid) ++
  t.on_finish.map (fun sid => "service.completed:" ++ sid)

/-- The body of `_normalize_triggers` for one service: skip when `triggers`
is `None`; otherwise build the pattern list and, only when it is non-empty,
replace `schedule` and clear `triggers`. -/
def normalizeService (svc : ServiceConfig) : ServiceConfig :=
  match svc.triggers with
  | none => svc
  | some t =>
    let trigger_list := triggerPatterns t
    if trigger_list ≠ [] then
      { svc with schedule := { stype := some "event", trigger := some trigger_list },
                 triggers := none }
    else svc

/-- `_normalize_triggers` over a batch of service configs. -/
def normalizeTriggers (services : List ServiceConfig) : List ServiceConfig :=
  services.map normalizeService

/-- Python dict insertion: an existing key keeps its position and takes the
new value; a new key is appended. -/
def dictInsert {α : Type} (l : List (String × α)) (k : String) (v : α) :
    List (String × α) :=
  if l.any (fun p => p.1 == k) then l.map (fun p => if p.1 = k then (k, v) else p)
  else l ++ [(k, v)]

/-- The registry's `_services = {s.id: s for s in services}` dict. -/
def servicesDict (services : List ServiceConfig) : List (String × ServiceConfig) :=
  services.foldl (fun acc s => dictInsert acc s.id s) []

/-- `config.py` class `ServiceRegistry`: the id-keyed dict (insertion order). -/
structure ServiceRegistry where
  services : List (String × ServiceConfig)
deriving DecidableEq

/-- `ServiceRegistry.__init__`. -/
def mkRegistry (services : List ServiceConfig) : ServiceRegistry :=
  ⟨servicesDict services⟩

/-- The sort key of `_rebuild_phase_index`: ascending `order`. -/
def ordLE (a b : ServiceConfig) : Prop := a.order ≤ b.order

instance : DecidableRel ordLE := fun a b => Int.decLe a.order b.order

instance : IsTotal ServiceConfig ordLE := ⟨fun a b => Int.le_total a.order b.order⟩

instance : IsTrans ServiceConfig ordLE := ⟨fun _ _ _ h h' => le_trans h h'⟩

/-- `_rebuild_phase_index` for one phase: the services of that phase in dict
order, stably sorted ascending by `order` (`list.sort(key=...)` is a stable
sort; `insertionSort` is the same stable sort). -/
def byPhase (reg : ServiceRegistry) (phase : String) : List ServiceConfig :=
  List.insertionSort ordLE
    ((reg.services.map Prod.snd).filter (fun s => s.phase == phase))

/-- `ServiceRegistry.get_phase_services`: enabled services of the phase. -/
def ServiceRegistry.get_phase_services (reg : ServiceRegistry) (phase : String) :
    List ServiceConfig :=
  (byPhase reg phase).filter (fun s => s.enabled)

/-- Modelled from the spec: the scheduler's shutdown dispatch order —
`service_scheduler.py` is not in the source tree (only its tests and callers
are). Per the spec, the `shutdown` phase is dispatched in the reverse of the
phase's service order. -/
def shutdownDispatchOrder (reg : ServiceRegistry) : List ServiceConfig :=
  (reg.get_phase_services "shutdown").reverse

/-- Modelled from the spec: `CircuitBreaker.may_run` — the module
`wiggum_orchestrator/circuit_breaker.py` is not in the source tree (only its
tests and callers are). Per the spec: permit iff breaker disabled, or state
`closed`, or state `open` with the cooldown elapsed (promoting the state to
half-open as a side effect of the check), or state half-open. The half-open
state string is `"half-open"`, as in the `ServiceEntry` field comment. -/
def mayRun (svc : ServiceConfig) (e : ServiceEntry) (now : ℚ) : Bool × ServiceEntry :=
  if ¬svc.cb_enabled then (true, e)
  else if e.circuit_state = "closed" then (true, e)
  else if e.circuit_state = "open" then
    if (svc.cb_cooldown : ℚ) ≤ now - e.circuit_opened_at then
      (true, { e with circuit_state := "half-open" })
    else (false, e)
  else (true, e)

/-- Modelled from the spec: the breaker's failure transition (module absent,
as above). Per the spec: `closed → open` when `fail_count` reaches
`threshold`, stamping `circuit_opened_at := now`; `half_open → open` on a
failed trial, restarting the cooldown; no-op when the breaker is disabled. -/
def recordFailure (svc : ServiceConfig) (e : ServiceEntry) (now : ℚ) : ServiceEntry :=
  if ¬svc.cb_enabled then e
  else if e.circuit_state = "closed" then
    if svc.cb_threshold ≤ e.fail_count then
      { e with circuit_state := "open", circuit_opened_at := now }
    else e
  else if e.circuit_state = "half-open" then
    { e with circuit_state := "open", circuit_opened_at := now }
  else e

/-- The scheduler's failure path for one execution: `mark_failed` (source)
followed by the breaker's threshold check (spec-modelled). -/
def failStep (svc : ServiceConfig) (e : ServiceEntry) (now : ℚ) : ServiceEntry :=
  recordFailure svc (markFailedEntry e) now

/-- Restore a parsed document into a fresh (empty) store, as a new
`ServiceState(ralph_dir)` instance would. -/
def restoreFresh (doc : SavedDoc) (alive : ℤ → Bool) : ServiceState :=
  (ServiceState.restore {} (some (some doc)) alive).2

/-- `save()` on one store followed by `restore()` on a fresh instance pointed
at the same directory. -/
def restoredFromSave (st : ServiceState) (now : ℤ) (alive : ℤ → Bool) : ServiceState :=
  restoreFresh (st.save now).1 alive

/-- A sequence of `record_execution` calls (duration, exit code) folded over
one entry. -/
def recordSeq (ds : List (ℤ × ℤ)) (e : ServiceEntry) : ServiceEntry :=
  ds.foldl (fun e d => recordExecutionEntry e d.1 d.2) e

/-- A concrete service config with circuit breaking enabled
(threshold 2, cooldown 10). -/
def cbSvc : ServiceConfig :=
  { id := "cb",
    circuit_breaker := some { enabled := some true, threshold := some 2,
                              cooldown := some 10 } }

/-- Two concrete shutdown-phase services, orders 10 and 20. -/
def shutdownSvcs : List ServiceConfig :=
  [{ id := "first", phase := "shutdown", order := 10 },
   { id := "second", phase := "shutdown", order := 20 }]

/-- A concrete saved document: one service recorded as `running` with pid 7. -/
def deadPidDoc : SavedDoc :=
  { version := "1.0", saved_at := 0,
    services := some [("a", { status := some "running", pid := some 7 })] }

/-- A concrete saved document: one service recorded as `failed`. -/
def failedStatusDoc : SavedDoc :=
  { version := "1.0", saved_at := 0,
    services := some [("a", { status := some "failed", pid := none })] }

/-! ### Lemmas about the store's dict operations -/

theorem lookup_setValue {α : Type} (l : List (String × α)) (k sid : String)
    (f : α → α) :
    (l.map (fun p => if p.1 = k then (p.1, f p.2) else p)).lookup sid =
      if sid = k then (l.lookup sid).map f else l.lookup sid := by
  induction l with
  | nil => simp
  | cons a t ih =>
    obtain ⟨ka, va⟩ := a
    by_cases hak : ka = k
    · subst hak
      by_cases hsk : sid = ka
      · subst hsk
        simp [List.lookup_cons]
      · have hb : (sid == ka) = false := by
          simp only [beq_eq_false_iff_ne, ne_eq]; exact hsk
        simp [List.lookup_cons, hb, ih, hsk]
    · by_cases hsa : sid = ka
      · subst hsa
        have hsk : ¬sid = k := hak
        simp [List.lookup_cons, hak, hsk]
      · have hb : (sid == ka) = false := by
          simp only [beq_eq_false_iff_ne, ne_eq]; exact hsa
        simp [List.lookup_cons, hak, hb, ih]

theorem lookup_append_str {α : Type} (l l' : List (String × α)) (sid : String) :
    (l ++ l').lookup sid = ((l.lookup sid).orElse fun _ => l'.lookup sid) := by
  induction l with
  | nil => simp
  | cons a t ih =>
    obtain ⟨ka, va⟩ := a
    by_cases h : sid = ka
    · subst h; simp [List.lookup_cons]
    · have hb : (sid == ka) = false := by
        simp only [beq_eq_false_iff_ne, ne_eq]; exact h
      simp [List.lookup_cons, hb, ih]

theorem lookup_ensure (st : ServiceState) (k sid : String) :
    ((st.ensure k).entries.lookup sid) =
      if sid = k then some (st.getEntry k) else st.entries.lookup sid := by
  unfold ServiceState.ensure ServiceState.getEntry
  by_cases hk : (st.entries.lookup k).isSome
  · rw [if_pos hk]
    by_cases hsk : sid = k
    · subst hsk
      obtain ⟨v, hv⟩ := Option.isSome_iff_exists.mp hk
      simp [hv]
    · simp [hsk]
  · rw [if_neg hk]
    have hnone : st.entries.lookup k = none := Option.not_isSome_iff_eq_none.mp hk
    by_cases hsk : sid = k
    · subst hsk
      simp [lookup_append_str, hnone, List.lookup_cons]
    · have hb : (sid == k) = false := by
        simp only [beq_eq_false_iff_ne, ne_eq]; exact hsk
      simp [lookup_append_str, hsk, List.lookup_cons, hb]

theorem getEntry_ensure (st : ServiceState) (k sid : String) :
    (st.ensure k).getEntry sid = st.getEntry sid := by
  unfold ServiceState.getEntry
  rw [lookup_ensure]
  by_cases hsk : sid = k
  · subst hsk
    simp [ServiceState.getEntry]
  · simp [hsk]

theorem ensure_dirty (st : ServiceState) (k : String) :
    (st.ensure k).dirty = st.dirty := by
  unfold ServiceState.ensure
  split <;> rfl

theorem update_dirty (st : ServiceState) (k : String) (f : ServiceEntry → ServiceEntry) :
    (st.update k f).dirty = st.dirty := by
  unfold ServiceState.update
  exact ensure_dirty st k

theorem getEntry_update (st : ServiceState) (k sid : String)
    (f : ServiceEntry → ServiceEntry) :
    (st.update k f).getEntry sid =
      if sid = k then f (st.getEntry k) else st.getEntry sid := by
  unfold ServiceState.update ServiceState.getEntry
  rw [lookup_setValue]
  by_cases hsk : sid = k
  · subst hsk
    rw [if_pos rfl, if_pos rfl]
    have := lookup_ensure st sid sid
    rw [if_pos rfl] at this
    rw [this]
    rfl
  · rw [if_neg hsk, if_neg hsk]
    have := lookup_ensure st k sid
    rw [if_neg hsk] at this
    rw [this]

/-! ### Lemmas about `restoreEntry` -/

theorem restoreEntry_proj (alive : ℤ → Bool) (raw : SavedService) (e : ServiceEntry) :
    (restoreEntry alive raw e).last_run = ((raw.last_run.getD 0 : ℤ) : ℚ) ∧
    (restoreEntry alive raw e).run_count = raw.run_count.getD 0 ∧
    (restoreEntry alive raw e).fail_count = raw.fail_count.getD 0 ∧
    (restoreEntry alive raw e).last_success = ((raw.last_success.getD 0 : ℤ) : ℚ) ∧
    (restoreEntry alive raw e).retry_count = raw.retry_count.getD 0 ∧
    (restoreEntry alive raw e).backoff_until = ((raw.backoff_until.getD 0 : ℤ) : ℚ) ∧
    (restoreEntry alive raw e).success_count = (raw.metrics.getD {}).success_count.getD 0 ∧
    (restoreEntry alive raw e).total_duration_ms =
      (raw.metrics.getD {}).total_duration_ms.getD 0 ∧
    (restoreEntry alive raw e).last_duration_ms =
      (raw.metrics.getD {}).last_duration_ms.getD 0 ∧
    (restoreEntry alive raw e).min_duration_ms =
      (raw.metrics.getD {}).min_duration_ms.getD 0 ∧
    (restoreEntry alive raw e).max_duration_ms =
      (raw.metrics.getD {}).max_duration_ms.getD 0 ∧
    (restoreEntry alive raw e).queue = raw.queue.getD [] ∧
    (restoreEntry alive raw e).circuit_state = (raw.circuit.getD {}).state.getD "closed" ∧
    (restoreEntry alive raw e).circuit_opened_at =
      (((raw.circuit.getD {}).opened_at.getD 0 : ℤ) : ℚ) ∧
    (restoreEntry alive raw e).half_open_attempts =
      (raw.circuit.getD {}).half_open_attempts.getD 0 := by
  unfold restoreEntry
  split <;> first
    | (split <;> exact ⟨rfl, rfl, rfl, rfl, rfl, rfl, rfl, rfl, rfl, rfl, rfl, rfl, rfl,
        rfl, rfl⟩)
    | exact ⟨rfl, rfl, rfl, rfl, rfl, rfl, rfl, rfl, rfl, rfl, rfl, rfl, rfl, rfl, rfl⟩

/-- The revalidated status after `restore` is either a confirmed `running`
(with its live pid) or `stopped` with the pid cleared. -/
theorem restoreEntry_status (alive : ℤ → Bool) (raw : SavedService) (e : ServiceEntry) :
    (raw.status.getD "stopped" = "running" ∧
      (∃ p, raw.pid = some p ∧ alive p = true ∧
        (restoreEntry alive raw e).status = "running" ∧
        (restoreEntry alive raw e).pid = some p)) ∨
    ((restoreEntry alive raw e).status = "stopped" ∧
      (restoreEntry alive raw e).pid = none) := by
  unfold restoreEntry
  split
  case _ p heq hpid =>
    by_cases ha : alive p = true
    · exact Or.inl ⟨heq, p, hpid, ha, by simp [ha], by simp [ha]⟩
    · have ha' : alive p = false := by
        cases h : alive p
        · rfl
        · exact absurd h ha
      exact Or.inr ⟨by simp [ha'], by simp [ha']⟩
  case _ =>
    exact Or.inr ⟨rfl, rfl⟩

/-! ### Lemmas about the `restore` fold -/

theorem getEntry_restore_foldl_notmem (alive : ℤ → Bool) :
    ∀ (l : List (String × SavedService)) (st : ServiceState) (sid : String),
      sid ∉ l.map Prod.fst →
      ((l.foldl (fun acc p => acc.update p.1 (restoreEntry alive p.2)) st)).getEntry sid =
        st.getEntry sid := by
  intro l
  induction l with
  | nil => intro st sid _; rfl
  | cons a t ih =>
    intro st sid hmem
    simp only [List.map_cons, List.mem_cons] at hmem
    push_neg at hmem
    rw [List.foldl_cons, ih _ _ hmem.2, getEntry_update, if_neg hmem.1]

theorem getEntry_restore_foldl (alive : ℤ → Bool) :
    ∀ (l : List (String × SavedService)) (st : ServiceState) (sid : String)
      (raw : SavedService), (sid, raw) ∈ l → (l.map Prod.fst).Nodup →
      ((l.foldl (fun acc p => acc.update p.1 (restoreEntry alive p.2)) st)).getEntry sid =
        restoreEntry alive raw (st.getEntry sid) := by
  intro l
  induction l with
  | nil => intro st sid raw hmem; exact absurd hmem (List.not_mem_nil _)
  | cons a t ih =>
    intro st sid raw hmem hnd
    simp only [List.map_cons, List.nodup_cons] at hnd
    rcases List.mem_cons.mp hmem with heq | htail
    · subst heq
      have hnot : sid ∉ t.map Prod.fst := hnd.1
      rw [List.foldl_cons, getEntry_restore_foldl_notmem alive t _ _ hnot,
        getEntry_update, if_pos rfl]
    · have hsid : sid ≠ a.1 := by
        intro h
        exact hnd.1 (h ▸ (List.mem_map_of_mem Prod.fst htail))
      rw [List.foldl_cons, ih _ _ _ htail hnd.2, getEntry_update, if_neg hsid]

/-- Every entry in a store reached by the restore fold from a store whose
entries all satisfy `P` on their values satisfies `P`, provided `P` holds of
the default entry's restoration and every restored value. -/
theorem restore_foldl_values (alive : ℤ → Bool) (P : ServiceEntry → Prop)
    (hP : ∀ raw e, P (restoreEntry alive raw e)) :
    ∀ (l : List (String × SavedService)) (st : ServiceState),
      (∀ q ∈ st.entries, P q.2) →
      ∀ q ∈ (l.foldl (fun acc p => acc.update p.1 (restoreEntry alive p.2)) st).entries,
        P q.2 := by
  intro l
  induction l with
  | nil => intro st hst q hq; exact hst q hq
  | cons a t ih =>
    intro st hst q hq
    refine ih _ ?_ q hq
    intro r hr
    unfold ServiceState.update at hr
    simp only at hr
    obtain ⟨p, hp, hpr⟩ := List.mem_map.mp hr
    by_cases hpk : p.1 = a.1
    · rw [← hpr, if_pos hpk]
      exact hP _ _
    · rw [← hpr, if_neg hpk]
      unfold ServiceState.ensure at hp
      split at hp
      · exact hst p hp
      · simp only [List.mem_append, List.mem_singleton] at hp
        rcases hp with hp | hp
        · exact hst p hp
        · rw [hp] at hpk
          exact absurd rfl hpk

theorem lookup_of_mem_nodup {α : Type} :
    ∀ (l : List (String × α)) (k : String) (v : α),
      (k, v) ∈ l → (l.map Prod.fst).Nodup → l.lookup k = some v := by
  intro l
  induction l with
  | nil => intro k v hmem; exact absurd hmem (List.not_mem_nil _)
  | cons a t ih =>
    intro k v hmem hnd
    simp only [List.map_cons, List.nodup_cons] at hnd
    rcases List.mem_cons.mp hmem with heq | htail
    · subst heq
      simp [List.lookup_cons]
    · have hk : k ≠ a.1 := by
        intro h
        exact hnd.1 (h ▸ (List.mem_map_of_mem Prod.fst htail))
      have hb : (k == a.1) = false := by
        simp only [beq_eq_false_iff_ne, ne_eq]; exact hk
      obtain ⟨ka, va⟩ := a
      simp only [List.lookup_cons]
      rw [show (k == ka) = false from hb]
      exact ih k v htail hnd.2

theorem mem_of_mem_keys {α : Type} (l : List (String × α)) (k : String)
    (h : k ∈ l.map Prod.fst) : ∃ v, (k, v) ∈ l := by
  obtain ⟨p, hp, hpk⟩ := List.mem_map.mp h
  exact ⟨p.2, by rw [← hpk]; exact hp⟩

theorem getEntry_empty (sid : String) : (({} : ServiceState)).getEntry sid = {} := rfl

theorem pyInt_intCast (n : ℤ) : pyInt (n : ℚ) = n := by
  unfold pyInt
  split
  · exact Int.ceil_intCast n
  · exact Int.floor_intCast n

/-! ### C7 — restore error tolerance -/

/-- C7: `restore()` on a missing state file, or on one whose contents are not
valid JSON, raises nothing (it is a total function here), returns `False`
("nothing restored"), and leaves the in-memory entries unchanged — in
particular empty/default on a fresh store. -/
theorem restore_missing_or_invalid_tolerated :
    ∀ (st : ServiceState) (alive : ℤ → Bool),
      st.restore none alive = (false, st) ∧
      st.restore (some none) alive = (false, st) ∧
      ((({} : ServiceState)).restore none alive).2.entries = [] ∧
      ((({} : ServiceState)).restore (some none) alive).2.entries = [] :=
  fun _ _ => ⟨rfl, rfl, rfl, rfl⟩

/-! ### C6 — restore PID revalidation -/

/-- C6: for every saved document containing an entry with status `"running"`
and a pid the liveness probe rejects, `restore()` yields an in-memory entry
with status `"stopped"` and pid `None` for that service (and reports that
state was restored). -/
theorem restore_dead_pid_revalidated
    (doc : SavedDoc) (alive : ℤ → Bool) (sid : String) (raw : SavedService) (p : ℤ)
    (hmem : (sid, raw) ∈ doc.services.getD [])
    (hnd : ((doc.services.getD []).map Prod.fst).Nodup)
    (hstatus : raw.status.getD "stopped" = "running")
    (hpid : raw.pid = some p)
    (hdead : alive p = false) :
    ((restoreFresh doc alive).getEntry sid).status = "stopped" ∧
    ((restoreFresh doc alive).getEntry sid).pid = none ∧
    ((({} : ServiceState)).restore (some (some doc)) alive).1 = true := by
  have hget : (restoreFresh doc alive).getEntry sid =
      restoreEntry alive raw ((({} : ServiceState)).getEntry sid) :=
    getEntry_restore_foldl alive (doc.services.getD []) {} sid raw hmem hnd
  rcases restoreEntry_status alive raw ((({} : ServiceState)).getEntry sid) with
    ⟨_, q, hq, hqa, _, _⟩ | ⟨h1, h2⟩
  · rw [hpid] at hq
    injection hq with hq
    rw [← hq, hdead] at hqa
    exact absurd hqa (by simp)
  · exact ⟨hget ▸ h1, hget ▸ h2, rfl⟩

/-! ### C9 — restore reconstructs only running/stopped -/

/-- C9 (implicit): `restore()` never reconstructs `"failed"` or `"skipped"`:
a saved entry that is anything other than `"running"` with a live pid is
restored as `"stopped"` with pid `None`, and consequently every entry of a
freshly restored store has status `"running"` or `"stopped"`. -/
theorem restore_status_only_running_or_stopped
    (doc : SavedDoc) (alive : ℤ → Bool) :
    (∀ sid raw, (sid, raw) ∈ doc.services.getD [] →
      ((doc.services.getD []).map Prod.fst).Nodup →
      ¬(raw.status.getD "stopped" = "running" ∧ ∃ p, raw.pid = some p ∧ alive p = true) →
      ((restoreFresh doc alive).getEntry sid).status = "stopped" ∧
      ((restoreFresh doc alive).getEntry sid).pid = none) ∧
    (∀ q ∈ (restoreFresh doc alive).entries,
      q.2.status = "running" ∨ q.2.status = "stopped") := by
  constructor
  · intro sid raw hmem hnd hnot
    have hget : (restoreFresh doc alive).getEntry sid =
        restoreEntry alive raw ((({} : ServiceState)).getEntry sid) :=
      getEntry_restore_foldl alive (doc.services.getD []) {} sid raw hmem hnd
    rcases restoreEntry_status alive raw ((({} : ServiceState)).getEntry sid) with
      ⟨hs, q, hq, hqa, _, _⟩ | ⟨h1, h2⟩
    · exact absurd ⟨hs, q, hq, hqa⟩ hnot
    · exact ⟨hget ▸ h1, hget ▸ h2⟩
  · intro q hq
    have hq' : q ∈ ((doc.services.getD []).foldl
        (fun acc p => acc.update p.1 (restoreEntry alive p.2)) ({} : ServiceState)).entries :=
      hq
    exact restore_foldl_values alive
      (fun e => e.status = "running" ∨ e.status = "stopped")
      (fun raw e => by
        rcases restoreEntry_status alive raw e with ⟨_, _, _, _, h, _⟩ | ⟨h, _⟩
        · exact Or.inl h
        · exact Or.inr h)
      (doc.services.getD []) {} (fun r hr => absurd hr (List.not_mem_nil _)) q hq'

/-- C6 witness. -/
theorem restore_dead_pid_revalidated_witness :
    ((restoreFresh deadPidDoc (fun _ => false)).getEntry "a").status = "stopped" ∧
    ((restoreFresh deadPidDoc (fun _ => false)).getEntry "a").pid = none ∧
    ((({} : ServiceState)).restore (some (some deadPidDoc)) (fun _ => false)).1 = true :=
  restore_dead_pid_revalidated deadPidDoc
    (fun _ => false) "a" { status := some "running", pid := some 7 } 7
    (by decide) (by decide) rfl rfl rfl

/-- C9 witness: a saved `"failed"` entry is restored as `"stopped"`. -/
theorem restore_status_only_running_or_stopped_witness :
    ((restoreFresh failedStatusDoc (fun _ => false)).getEntry "a").status = "stopped" ∧
    ((restoreFresh failedStatusDoc (fun _ => false)).getEntry "a").pid = none :=
  (restore_status_only_running_or_stopped failedStatusDoc (fun _ => false)).1
    "a" { status := some "failed", pid := none }
    (by decide) (by decide) (fun h => absurd h.1 (by decide))

/-! ### Save/restore plumbing shared by C2 and C10 -/

theorem saved_services_eq (st : ServiceState) (now : ℤ) :
    (st.save now).1.services.getD [] =
      st.entries.map (fun p => (p.1, saveEntry p.2)) := rfl

theorem getEntry_eq_of_mem (st : ServiceState) (sid : String) (e : ServiceEntry)
    (he : (sid, e) ∈ st.entries) (hnd : (st.entries.map Prod.fst).Nodup) :
    st.getEntry sid = e := by
  unfold ServiceState.getEntry
  rw [lookup_of_mem_nodup st.entries sid e he hnd]
  rfl

theorem getEntry_restoredFromSave
    (st : ServiceState) (now : ℤ) (alive : ℤ → Bool) (sid : String)
    (hmem : sid ∈ st.entries.map Prod.fst)
    (hnd : (st.entries.map Prod.fst).Nodup) :
    (restoredFromSave st now alive).getEntry sid =
      restoreEntry alive (saveEntry (st.getEntry sid)) {} := by
  obtain ⟨e, he⟩ := mem_of_mem_keys st.entries sid hmem
  have hkeys : ((st.entries.map (fun p => (p.1, saveEntry p.2))).map Prod.fst) =
      st.entries.map Prod.fst := by
    rw [List.map_map]
    rfl
  have hget := getEntry_restore_foldl alive
    (st.entries.map (fun p => (p.1, saveEntry p.2))) {} sid (saveEntry e)
    (List.mem_map_of_mem (fun p => (p.1, saveEntry p.2)) he)
    (by rw [hkeys]; exact hnd)
  rw [getEntry_eq_of_mem st sid e he hnd]
  exact hget

theorem saveEntry_circuit (e : ServiceEntry) :
    (saveEntry e).circuit =
      some { state := some e.circuit_state,
             opened_at := some (pyInt e.circuit_opened_at),
             half_open_attempts := some e.half_open_attempts } := rfl

theorem saveEntry_metrics (e : ServiceEntry) :
    (saveEntry e).metrics =
      some { total_duration_ms := some e.total_duration_ms,
             success_count := some e.success_count,
             last_duration_ms := some e.last_duration_ms,
             min_duration_ms := some e.min_duration_ms,
             max_duration_ms := some e.max_duration_ms } := rfl

/-! ### C2 — persistence round trip -/

/-- C2: `save()` then `restore()` on a fresh instance pointed at the same
directory round-trips, for every service id, `run_count`, `fail_count`,
`success_count` and `retry_count`, the circuit sub-object (state, opened_at
as persisted, half_open_attempts) and the metrics sub-object exactly: saving
the restored store again reproduces byte-identical `circuit` and `metrics`
sub-objects. -/
theorem save_restore_round_trip
    (st : ServiceState) (now : ℤ) (alive : ℤ → Bool) (sid : String)
    (hmem : sid ∈ st.entries.map Prod.fst)
    (hnd : (st.entries.map Prod.fst).Nodup) :
    ((({} : ServiceState)).restore (some (some (st.save now).1)) alive).1 = true ∧
    ((restoredFromSave st now alive).getEntry sid).run_count =
      (st.getEntry sid).run_count ∧
    ((restoredFromSave st now alive).getEntry sid).fail_count =
      (st.getEntry sid).fail_count ∧
    ((restoredFromSave st now alive).getEntry sid).success_count =
      (st.getEntry sid).success_count ∧
    ((restoredFromSave st now alive).getEntry sid).retry_count =
      (st.getEntry sid).retry_count ∧
    ((restoredFromSave st now alive).getEntry sid).circuit_state =
      (st.getEntry sid).circuit_state ∧
    ((restoredFromSave st now alive).getEntry sid).circuit_opened_at =
      ((pyInt (st.getEntry sid).circuit_opened_at : ℤ) : ℚ) ∧
    ((restoredFromSave st now alive).getEntry sid).half_open_attempts =
      (st.getEntry sid).half_open_attempts ∧
    ((restoredFromSave st now alive).getEntry sid).total_duration_ms =
      (st.getEntry sid).total_duration_ms ∧
    ((restoredFromSave st now alive).getEntry sid).last_duration_ms =
      (st.getEntry sid).last_duration_ms ∧
    ((restoredFromSave st now alive).getEntry sid).min_duration_ms =
      (st.getEntry sid).min_duration_ms ∧
    ((restoredFromSave st now alive).getEntry sid).max_duration_ms =
      (st.getEntry sid).max_duration_ms ∧
    (saveEntry ((restoredFromSave st now alive).getEntry sid)).circuit =
      (saveEntry (st.getEntry sid)).circuit ∧
    (saveEntry ((restoredFromSave st now alive).getEntry sid)).metrics =
      (saveEntry (st.getEntry sid)).metrics := by
  have hget := getEntry_restoredFromSave st now alive sid hmem hnd
  obtain ⟨h1, h2, h3, h4, h5, h6, h7, h8, h9, h10, h11, h12, h13, h14, h15⟩ :=
    restoreEntry_proj alive (saveEntry (st.getEntry sid)) {}
  rw [hget]
  refine ⟨rfl, ?_, ?_, ?_, ?_, ?_, ?_, ?_, ?_, ?_, ?_, ?_, ?_, ?_⟩
  · rw [h2]; rfl
  · rw [h3]; rfl
  · rw [h7]; rfl
  · rw [h5]; rfl
  · rw [h13]; rfl
  · rw [h14]; rfl
  · rw [h15]; rfl
  · rw [h8]; rfl
  · rw [h9]; rfl
  · rw [h10]; rfl
  · rw [h11]; rfl
  · rw [saveEntry_circuit, saveEntry_circuit, h13, h14, h15]
    simp [saveEntry_circuit, pyInt_intCast]
  · rw [saveEntry_metrics, saveEntry_metrics, h7, h8, h9, h10, h11]
    simp [saveEntry_metrics]

/-- C2 witness. -/
theorem save_restore_round_trip_witness :
    ((restoredFromSave
        { entries := [("a", { run_count := 3, fail_count := 2, success_count := 1,
                              retry_count := 4, circuit_state := "open",
                              circuit_opened_at := 7/2, half_open_attempts := 1,
                              total_duration_ms := 9, last_duration_ms := 5,
                              min_duration_ms := 2, max_duration_ms := 7 })],
          dirty := true } 100 (fun _ => false)).getEntry "a").run_count = 3 := by
  have h := save_restore_round_trip
    { entries := [("a", { run_count := 3, fail_count := 2, success_count := 1,
                          retry_count := 4, circuit_state := "open",
                          circuit_opened_at := 7/2, half_open_attempts := 1,
                          total_duration_ms := 9, last_duration_ms := 5,
                          min_duration_ms := 2, max_duration_ms := 7 })],
      dirty := true } 100 (fun _ => false) "a" (by decide) (by decide)
  rw [h.2.1]
  decide

/-! ### C10 — timestamp truncation on save -/

/-- C10 (implicit): `save()` passes `last_run`, `backoff_until`,
`circuit_opened_at` and `last_success` through `int()`, so the persisted
record holds whole seconds and `save()` followed by `restore()` yields the
integer (truncated) part of each pre-save value; sub-second precision is
never persisted. -/
theorem save_truncates_timestamps
    (st : ServiceState) (now : ℤ) (alive : ℤ → Bool) (sid : String)
    (hmem : sid ∈ st.entries.map Prod.fst)
    (hnd : (st.entries.map Prod.fst).Nodup) :
    ((restoredFromSave st now alive).getEntry sid).last_run =
      ((pyInt (st.getEntry sid).last_run : ℤ) : ℚ) ∧
    ((restoredFromSave st now alive).getEntry sid).backoff_until =
      ((pyInt (st.getEntry sid).backoff_until : ℤ) : ℚ) ∧
    ((restoredFromSave st now alive).getEntry sid).circuit_opened_at =
      ((pyInt (st.getEntry sid).circuit_opened_at : ℤ) : ℚ) ∧
    ((restoredFromSave st now alive).getEntry sid).last_success =
      ((pyInt (st.getEntry sid).last_success : ℤ) : ℚ) ∧
    (sid, saveEntry (st.getEntry sid)) ∈ ((st.save now).1.services.getD []) ∧
    (saveEntry (st.getEntry sid)).last_run = some (pyInt (st.getEntry sid).last_run) ∧
    (saveEntry (st.getEntry sid)).backoff_until =
      some (pyInt (st.getEntry sid).backoff_until) ∧
    (saveEntry (st.getEntry sid)).last_success =
      some (pyInt (st.getEntry sid).last_success) ∧
    (saveEntry (st.getEntry sid)).circuit =
      some { state := some (st.getEntry sid).circuit_state,
             opened_at := some (pyInt (st.getEntry sid).circuit_opened_at),
             half_open_attempts := some (st.getEntry sid).half_open_attempts } := by
  have hget := getEntry_restoredFromSave st now alive sid hmem hnd
  obtain ⟨h1, h2, h3, h4, h5, h6, h7, h8, h9, h10, h11, h12, h13, h14, h15⟩ :=
    restoreEntry_proj alive (saveEntry (st.getEntry sid)) {}
  obtain ⟨e, he⟩ := mem_of_mem_keys st.entries sid hmem
  have hei : st.getEntry sid = e := getEntry_eq_of_mem st sid e he hnd
  refine ⟨?_, ?_, ?_, ?_, ?_, rfl, rfl, rfl, saveEntry_circuit _⟩
  · rw [hget, h1]; rfl
  · rw [hget, h6]; rfl
  · rw [hget, h14]; rfl
  · rw [hget, h4]; rfl
  · rw [saved_services_eq, hei]
    exact List.mem_map_of_mem (fun p => (p.1, saveEntry p.2)) he

/-- C10 witness: a pre-save value of 7/2 seconds restores as 3. -/
theorem save_truncates_timestamps_witness :
    ((restoredFromSave { entries := [("a", { last_run := 7/2 })], dirty := true }
        100 (fun _ => false)).getEntry "a").last_run = ((3 : ℤ) : ℚ) := by
  have h := save_truncates_timestamps
    { entries := [("a", { last_run := 7/2 })], dirty := true }
    100 (fun _ => false) "a" (by decide) (by decide)
  rw [h.1]
  norm_num [ServiceState.getEntry, List.lookup_cons, pyInt]

/-! ### C4 — dirty flag -/

/-- C4 counterexample: `mark_skipped` mutates the store (the entry's status
becomes `"skipped"`) yet does not set the dirty flag, so `save_if_dirty`
writes nothing afterwards — refuting the claim that every mutation through
the defined operations sets the dirty flag. -/
theorem mark_skipped_not_dirty_cex :
    ((({} : ServiceState)).markSkipped "svc").dirty = false ∧
    (((({} : ServiceState)).markSkipped "svc").getEntry "svc").status = "skipped" ∧
    ((({} : ServiceState)).markSkipped "svc").saveIfDirty 0 =
      (none, (({} : ServiceState)).markSkipped "svc") := by
  refine ⟨rfl, rfl, ?_⟩
  unfold ServiceState.saveIfDirty
  rfl

/-- C4 (amended): `mark_started`, `mark_completed`, `mark_failed`,
`record_execution` and `set_backoff` set the dirty flag; `mark_skipped` and
the self-healing correction inside `is_running` mutate the store without
setting it; and `save_if_dirty` performs no write when the flag is clear. -/
theorem dirty_flag_discipline
    (st : ServiceState) (sid : String) (pid : Option ℤ) (now dur : ℚ)
    (d c : ℤ) (alive : ℤ → Bool) (tnow : ℤ) :
    (st.markStarted sid pid now).dirty = true ∧
    (st.markCompleted sid now).dirty = true ∧
    (st.markFailed sid).dirty = true ∧
    (st.recordExecution sid d c).dirty = true ∧
    (st.setBackoff sid dur now).dirty = true ∧
    (st.markSkipped sid).dirty = st.dirty ∧
    ((st.isRunning sid alive).2).dirty = st.dirty ∧
    (st.dirty = false → st.saveIfDirty tnow = (none, st)) := by
  refine ⟨rfl, rfl, rfl, rfl, rfl, update_dirty st sid markSkippedEntry, ?_, ?_⟩
  · unfold ServiceState.isRunning
    simp only
    split
    · exact ensure_dirty st sid
    · split
      · exact ensure_dirty st sid
      · split
        · exact ensure_dirty st sid
        · rw [update_dirty, ensure_dirty]
  · intro h
    unfold ServiceState.saveIfDirty
    rw [h]
    rfl

/-- C4 witness. -/
theorem dirty_flag_discipline_witness :
    ((({} : ServiceState)).markStarted "a" (some 3) 1).dirty = true ∧
    (({} : ServiceState)).dirty = false ∧
    (({} : ServiceState)).saveIfDirty 0 = (none, ({} : ServiceState)) := by
  have h := dirty_flag_discipline {} "a" (some 3) 1 2 5 0 (fun _ => false) 0
  exact ⟨h.1, rfl, h.2.2.2.2.2.2.2 rfl⟩

/-! ### C3 — execution metrics -/

theorem recordExecutionEntry_proj (e : ServiceEntry) (d c : ℤ) :
    (recordExecutionEntry e d c).last_duration_ms = d ∧
    (recordExecutionEntry e d c).total_duration_ms = e.total_duration_ms + d ∧
    (recordExecutionEntry e d c).min_duration_ms =
      (if e.min_duration_ms = 0 ∨ d < e.min_duration_ms then d
       else e.min_duration_ms) ∧
    (recordExecutionEntry e d c).max_duration_ms = max e.max_duration_ms d := by
  unfold recordExecutionEntry
  dsimp only
  split_ifs with h1 h2 <;> refine ⟨rfl, rfl, rfl, ?_⟩ <;> simp only [max_def] <;>
    split_ifs <;> dsimp only at * <;> omega

theorem foldl_max_mem (l : List ℤ) (a : ℤ) :
    l.foldl max a = a ∨ l.foldl max a ∈ l := by
  induction l generalizing a with
  | nil => exact Or.inl rfl
  | cons x t ih =>
    rcases ih (max a x) with h | h
    · rcases max_cases a x with ⟨hm, _⟩ | ⟨hm, _⟩
      · exact Or.inl (by rw [List.foldl_cons, h, hm])
      · exact Or.inr (by rw [List.foldl_cons, h, hm]; exact List.mem_cons_self x t)
    · exact Or.inr (List.mem_cons_of_mem x h)

theorem le_foldl_max (l : List ℤ) (a : ℤ) :
    a ≤ l.foldl max a ∧ ∀ x ∈ l, x ≤ l.foldl max a := by
  induction l generalizing a with
  | nil => exact ⟨le_refl a, fun x hx => absurd hx (List.not_mem_nil x)⟩
  | cons y t ih =>
    obtain ⟨h1, h2⟩ := ih (max a y)
    rw [List.foldl_cons]
    refine ⟨le_trans (le_max_left a y) h1, ?_⟩
    intro x hx
    rcases List.mem_cons.mp hx with h | h
    · subst h
      exact le_trans (le_max_right _ _) h1
    · exact h2 x h

theorem foldl_min_mem (l : List ℤ) (a : ℤ) :
    l.foldl min a = a ∨ l.foldl min a ∈ l := by
  induction l generalizing a with
  | nil => exact Or.inl rfl
  | cons x t ih =>
    rcases ih (min a x) with h | h
    · rcases min_cases a x with ⟨hm, _⟩ | ⟨hm, _⟩
      · exact Or.inl (by rw [List.foldl_cons, h, hm])
      · exact Or.inr (by rw [List.foldl_cons, h, hm]; exact List.mem_cons_self x t)
    · exact Or.inr (List.mem_cons_of_mem x h)

theorem foldl_min_le (l : List ℤ) (a : ℤ) :
    l.foldl min a ≤ a ∧ ∀ x ∈ l, l.foldl min a ≤ x := by
  induction l generalizing a with
  | nil => exact ⟨le_refl a, fun x hx => absurd hx (List.not_mem_nil x)⟩
  | cons y t ih =>
    obtain ⟨h1, h2⟩ := ih (min a y)
    rw [List.foldl_cons]
    refine ⟨le_trans h1 (min_le_left a y), ?_⟩
    intro x hx
    rcases List.mem_cons.mp hx with h | h
    · subst h
      exact le_trans h1 (min_le_right _ _)
    · exact h2 x h

theorem recEx_last :
    ∀ (ds : List (ℤ × ℤ)) (e : ServiceEntry) (hne : ds ≠ []),
      (ds.foldl (fun e d => recordExecutionEntry e d.1 d.2) e).last_duration_ms =
        (ds.getLast hne).1 := by
  intro ds
  induction ds with
  | nil => intro e hne; exact absurd rfl hne
  | cons d t ih =>
    intro e hne
    cases t with
    | nil =>
      rw [List.foldl_cons, List.foldl_nil, List.getLast_singleton]
      exact (recordExecutionEntry_proj e d.1 d.2).1
    | cons d2 t2 =>
      rw [List.foldl_cons, List.getLast_cons (by simp)]
      exact ih _ (by simp)

theorem recEx_total :
    ∀ (ds : List (ℤ × ℤ)) (e : ServiceEntry),
      (ds.foldl (fun e d => recordExecutionEntry e d.1 d.2) e).total_duration_ms =
        e.total_duration_ms + (ds.map Prod.fst).sum := by
  intro ds
  induction ds with
  | nil => intro e; simp
  | cons d t ih =>
    intro e
    rw [List.foldl_cons, ih, (recordExecutionEntry_proj e d.1 d.2).2.1]
    simp [add_assoc]

theorem recEx_max :
    ∀ (ds : List (ℤ × ℤ)) (e : ServiceEntry),
      (ds.foldl (fun e d => recordExecutionEntry e d.1 d.2) e).max_duration_ms =
        (ds.map Prod.fst).foldl max e.max_duration_ms := by
  intro ds
  induction ds with
  | nil => intro e; rfl
  | cons d t ih =>
    intro e
    rw [List.foldl_cons, ih, (recordExecutionEntry_proj e d.1 d.2).2.2.2]
    rfl

theorem recEx_min :
    ∀ (ds : List (ℤ × ℤ)) (e : ServiceEntry), 0 < e.min_duration_ms →
      (∀ x ∈ ds, 0 < x.1) →
      (ds.foldl (fun e d => recordExecutionEntry e d.1 d.2) e).min_duration_ms =
        (ds.map Prod.fst).foldl min e.min_duration_ms := by
  intro ds
  induction ds with
  | nil => intro e _ _; rfl
  | cons d t ih =>
    intro e hmin hpos
    have hd : 0 < d.1 := hpos d (List.mem_cons_self d t)
    have hstep : (recordExecutionEntry e d.1 d.2).min_duration_ms =
        min e.min_duration_ms d.1 := by
      rw [(recordExecutionEntry_proj e d.1 d.2).2.2.1]
      rcases min_cases e.min_duration_ms d.1 with ⟨hm, hle⟩ | ⟨hm, hlt⟩ <;> omega
    have hmin' : 0 < (recordExecutionEntry e d.1 d.2).min_duration_ms := by
      rw [hstep]
      exact lt_min hmin hd
    have hpos' : ∀ x ∈ t, 0 < x.1 := fun x hx => hpos x (List.mem_cons_of_mem d hx)
    rw [List.foldl_cons, ih (recordExecutionEntry e d.1 d.2) hmin' hpos', hstep,
      List.map_cons, List.foldl_cons]

/-- C3 counterexample: after recording a duration of 0 and then 5,
`min_duration_ms` is 5, not the minimum 0 — the code treats
`min_duration_ms == 0` as the "no data" sentinel, so the recorded 0 is
overwritten by the later, larger sample. -/
theorem record_zero_min_sentinel_cex :
    (recordSeq [(0, 0), (5, 0)] ({} : ServiceEntry)).min_duration_ms = 5 ∧
    ¬(recordSeq [(0, 0), (5, 0)] ({} : ServiceEntry)).min_duration_ms = 0 := by
  decide

/-- C3 (amended): for every non-empty sequence of `record_execution` calls
with positive durations, `last_duration_ms` is the last duration,
`total_duration_ms` their sum, `max_duration_ms` their maximum and
`min_duration_ms` their minimum. (The unamended claim fails for a recorded
duration of 0: the code uses `min_duration_ms == 0` as the "no data"
sentinel, so a later larger sample replaces a recorded minimum of 0.) -/
theorem record_execution_metrics
    (ds : List (ℤ × ℤ)) (hne : ds ≠ []) (hpos : ∀ x ∈ ds, 0 < x.1) :
    (recordSeq ds ({} : ServiceEntry)).last_duration_ms = (ds.getLast hne).1 ∧
    (recordSeq ds ({} : ServiceEntry)).total_duration_ms = (ds.map Prod.fst).sum ∧
    (recordSeq ds ({} : ServiceEntry)).max_duration_ms ∈ ds.map Prod.fst ∧
    (∀ x ∈ ds, x.1 ≤ (recordSeq ds ({} : ServiceEntry)).max_duration_ms) ∧
    (recordSeq ds ({} : ServiceEntry)).min_duration_ms ∈ ds.map Prod.fst ∧
    (∀ x ∈ ds, (recordSeq ds ({} : ServiceEntry)).min_duration_ms ≤ x.1) := by
  unfold recordSeq
  refine ⟨recEx_last ds {} hne, ?_, ?_, ?_, ?_, ?_⟩
  · rw [recEx_total ds {}]
    simp
  · rw [recEx_max ds {}]
    rcases foldl_max_mem (ds.map Prod.fst) 0 with h | h
    · obtain ⟨d, t, rfl⟩ := List.exists_cons_of_ne_nil hne
      have hle := (le_foldl_max ((d :: t).map Prod.fst) 0).2 d.1
        (by simp)
      rw [h] at hle
      have := hpos d (List.mem_cons_self d t)
      omega
    · exact h
  · intro x hx
    rw [recEx_max ds {}]
    exact (le_foldl_max (ds.map Prod.fst) 0).2 x.1 (List.mem_map_of_mem Prod.fst hx)
  · obtain ⟨d, t, rfl⟩ := List.exists_cons_of_ne_nil hne
    have hd : 0 < d.1 := hpos d (List.mem_cons_self d t)
    have hfirst :
        (recordExecutionEntry ({} : ServiceEntry) d.1 d.2).min_duration_ms = d.1 := by
      rw [(recordExecutionEntry_proj {} d.1 d.2).2.2.1]
      simp
    rw [List.foldl_cons, recEx_min t _ (by rw [hfirst]; exact hd)
      (fun x hx => hpos x (List.mem_cons_of_mem d hx)), hfirst]
    rcases foldl_min_mem (t.map Prod.fst) d.1 with h | h
    · rw [h]
      simp
    · simp [List.mem_cons_of_mem, h]
  · intro x hx
    obtain ⟨d, t, rfl⟩ := List.exists_cons_of_ne_nil hne
    have hd : 0 < d.1 := hpos d (List.mem_cons_self d t)
    have hfirst :
        (recordExecutionEntry ({} : ServiceEntry) d.1 d.2).min_duration_ms = d.1 := by
      rw [(recordExecutionEntry_proj {} d.1 d.2).2.2.1]
      simp
    rw [List.foldl_cons, recEx_min t _ (by rw [hfirst]; exact hd)
      (fun y hy => hpos y (List.mem_cons_of_mem d hy)), hfirst]
    rcases List.mem_cons.mp hx with h | h
    · subst h
      exact (foldl_min_le (t.map Prod.fst) x.1).1
    · exact (foldl_min_le (t.map Prod.fst) d.1).2 x.1 (List.mem_map_of_mem Prod.fst h)

/-- C3 witness. -/
theorem record_execution_metrics_witness :
    ([((3 : ℤ), (0 : ℤ)), (1, 0), (2, 1)] ≠ ([] : List (ℤ × ℤ))) ∧
    (recordSeq [(3, 0), (1, 0), (2, 1)] ({} : ServiceEntry)).last_duration_ms = 2 ∧
    (recordSeq [(3, 0), (1, 0), (2, 1)] ({} : ServiceEntry)).total_duration_ms = 6 := by
  have h := record_execution_metrics [((3 : ℤ), (0 : ℤ)), (1, 0), (2, 1)]
    (by decide) (by decide)
  refine ⟨by decide, ?_, ?_⟩
  · rw [h.1]
    decide
  · rw [h.2.1]
    decide

/-! ### C5 — trigger normalization -/

theorem normalizeService_triggers_of_patterns (svc : ServiceConfig) (t : Triggers)
    (ht : svc.triggers = some t) (hne : triggerPatterns t ≠ []) :
    normalizeService svc =
      { svc with schedule := { stype := some "event",
                               trigger := some (triggerPatterns t) },
                 triggers := none } := by
  unfold normalizeService
  rw [ht]
  simp only [hne]
  rw [if_pos hne]

theorem normalizeService_fixed (svc : ServiceConfig)
    (h : svc.triggers = none ∨ ∃ t, svc.triggers = some t ∧ triggerPatterns t = []) :
    normalizeService svc = svc := by
  unfold normalizeService
  rcases h with h | ⟨t, ht, hemp⟩
  · rw [h]
  · rw [ht]
    simp [hemp]

theorem normalizeService_idem (svc : ServiceConfig) :
    normalizeService (normalizeService svc) = normalizeService svc := by
  cases ht : svc.triggers with
  | none => rw [normalizeService_fixed svc (Or.inl ht), normalizeService_fixed svc
      (Or.inl ht)]
  | some t =>
    by_cases hne : triggerPatterns t = []
    · rw [normalizeService_fixed svc (Or.inr ⟨t, ht, hne⟩),
        normalizeService_fixed svc (Or.inr ⟨t, ht, hne⟩)]
    · rw [normalizeService_triggers_of_patterns svc t ht hne]
      exact normalizeService_fixed _ (Or.inl rfl)

/-- C5 counterexample: a service whose `triggers` field is present but maps
no dependency (all three lists empty) is left untouched — `triggers` stays
non-`None` after `_normalize_triggers`, refuting "after normalization every
service has `triggers == None`". -/
theorem normalize_triggers_empty_cex :
    normalizeTriggers [{ id := "a", triggers := some {} }] =
      [{ id := "a", triggers := some {} }] ∧
    ({ id := "a", triggers := some {} } : ServiceConfig).triggers ≠ none := by
  constructor
  · rfl
  · intro h
    exact Option.noConfusion h

/-- C5 (amended): for every service with a `triggers` field mapping at least
one dependency, normalization sets `schedule` to
`{type: "event", trigger: [...]}` — one pattern per dependency,
`on_complete → service.succeeded:<dep>`, `on_failure → service.failed:<dep>`,
`on_finish → service.completed:<dep>`, in that order — and clears `triggers`;
a service with `triggers` absent, or present but mapping no dependency, is
left unchanged (in the latter case `triggers` remains non-`None`, which is
the one deviation from the claim); normalization is idempotent. -/
theorem normalize_triggers_amended (services : List ServiceConfig)
    (svc : ServiceConfig) (t : Triggers) :
    (svc.triggers = some t → triggerPatterns t ≠ [] →
      (normalizeService svc).schedule =
        { stype := some "event", trigger := some (triggerPatterns t) } ∧
      (normalizeService svc).triggers = none ∧
      (normalizeService svc).schedule_type = "event") ∧
    (triggerPatterns t =
      t.on_complete.map (fun dep => "service.succeeded:" ++ dep) ++
      t.on_failure.map (fun dep => "service.failed:" ++ dep) ++
      t.on_finish.map (fun dep => "service.completed:" ++ dep)) ∧
    (svc.triggers = none → normalizeService svc = svc) ∧
    normalizeTriggers services = services.map normalizeService ∧
    normalizeTriggers (normalizeTriggers services) = normalizeTriggers services := by
  refine ⟨?_, rfl, ?_, rfl, ?_⟩
  · intro ht hne
    rw [normalizeService_triggers_of_patterns svc t ht hne]
    exact ⟨rfl, rfl, rfl⟩
  · intro h
    exact normalizeService_fixed svc (Or.inl h)
  · unfold normalizeTriggers
    rw [List.map_map]
    apply List.map_congr_left
    intro s _
    exact normalizeService_idem s

/-- C5 witness. -/
theorem normalize_triggers_amended_witness :
    (normalizeService { id := "b", triggers := some { on_complete := ["x"] } }).schedule =
      { stype := some "event", trigger := some ["service.succeeded:x"] } ∧
    (normalizeService { id := "b", triggers := some { on_complete := ["x"] } }).triggers =
      none := by
  have h := (normalize_triggers_amended []
    { id := "b", triggers := some { on_complete := ["x"] } }
    { on_complete := ["x"] }).1 rfl (by decide)
  exact ⟨h.1, h.2.1⟩

/-! ### C1 — circuit breaker state machine -/

theorem markFailedEntry_proj (e : ServiceEntry) :
    (markFailedEntry e).circuit_state = e.circuit_state ∧
    (markFailedEntry e).fail_count = e.fail_count + 1 ∧
    (markFailedEntry e).circuit_opened_at = e.circuit_opened_at ∧
    (markFailedEntry e).half_open_attempts = e.half_open_attempts :=
  ⟨rfl, rfl, rfl, rfl⟩

theorem recordFailure_closed (svc : ServiceConfig) (e : ServiceEntry) (now : ℚ)
    (hen : svc.cb_enabled = true) (hcl : e.circuit_state = "closed") :
    recordFailure svc e now =
      if svc.cb_threshold ≤ e.fail_count then
        { e with circuit_state := "open", circuit_opened_at := now }
      else e := by
  unfold recordFailure
  simp [hen, hcl]

theorem failStep_fold (svc : ServiceConfig) (hen : svc.cb_enabled = true) :
    ∀ (ts : List ℚ) (e : ServiceEntry), e.circuit_state = "closed" →
      ts ≠ [] → e.fail_count + (ts.length : ℤ) = svc.cb_threshold →
      (ts.foldl (failStep svc) e).circuit_state = "open" ∧
      (∀ hne : ts ≠ [],
        (ts.foldl (failStep svc) e).circuit_opened_at = ts.getLast hne) ∧
      (ts.foldl (failStep svc) e).fail_count = svc.cb_threshold ∧
      (ts.foldl (failStep svc) e).half_open_attempts = e.half_open_attempts := by
  intro ts
  induction ts with
  | nil => intro e _ hne; exact absurd rfl hne
  | cons tm ts2 ih =>
    intro e hcl hne hcount
    have hstep : failStep svc e tm =
        if svc.cb_threshold ≤ e.fail_count + 1 then
          { markFailedEntry e with circuit_state := "open", circuit_opened_at := tm }
        else markFailedEntry e := by
      unfold failStep
      rw [recordFailure_closed svc (markFailedEntry e) tm hen
        ((markFailedEntry_proj e).1.trans hcl), (markFailedEntry_proj e).2.1]
      rfl
    cases ts2 with
    | nil =>
      have hthr : svc.cb_threshold ≤ e.fail_count + 1 := by
        simp only [List.length_cons, List.length_nil] at hcount
        push_cast at hcount
        omega
      have : failStep svc e tm =
          { markFailedEntry e with circuit_state := "open", circuit_opened_at := tm } := by
        rw [hstep, if_pos hthr]
      rw [List.foldl_cons, List.foldl_nil, this]
      refine ⟨rfl, fun _ => rfl, ?_, rfl⟩
      show e.fail_count + 1 = svc.cb_threshold
      simp only [List.length_cons, List.length_nil] at hcount
      push_cast at hcount
      omega
    | cons tm2 ts3 =>
      have hlt : ¬svc.cb_threshold ≤ e.fail_count + 1 := by
        simp only [List.length_cons] at hcount
        push_cast at hcount
        omega
      have hstep2 : failStep svc e tm = markFailedEntry e := by
        rw [hstep, if_neg hlt]
      have hcl2 : (markFailedEntry e).circuit_state = "closed" :=
        (markFailedEntry_proj e).1.trans hcl
      have hcount2 : (markFailedEntry e).fail_count +
          (((tm2 :: ts3) : List ℚ).length : ℤ) = svc.cb_threshold := by
        rw [(markFailedEntry_proj e).2.1]
        simp only [List.length_cons] at hcount ⊢
        push_cast at hcount ⊢
        omega
      obtain ⟨g1, g2, g3, g4⟩ := ih (markFailedEntry e) hcl2 (by simp) hcount2
      rw [List.foldl_cons, hstep2]
      refine ⟨g1, ?_, g3, g4.trans (markFailedEntry_proj e).2.2.2⟩
      intro _
      rw [List.getLast_cons (by simp)]
      exact g2 (by simp)

theorem mayRun_open_blocked (svc : ServiceConfig) (e : ServiceEntry) (now : ℚ)
    (hen : svc.cb_enabled = true) (hopen : e.circuit_state = "open")
    (hcool : now - e.circuit_opened_at < (svc.cb_cooldown : ℚ)) :
    mayRun svc e now = (false, e) := by
  unfold mayRun
  rw [if_neg (by simp [hen]), if_neg (by rw [hopen]; decide), if_pos hopen,
    if_neg (not_le.mpr hcool)]

theorem mayRun_open_elapsed (svc : ServiceConfig) (e : ServiceEntry) (now : ℚ)
    (hen : svc.cb_enabled = true) (hopen : e.circuit_state = "open")
    (hcool : (svc.cb_cooldown : ℚ) ≤ now - e.circuit_opened_at) :
    mayRun svc e now = (true, { e with circuit_state := "half-open" }) := by
  unfold mayRun
  rw [if_neg (by simp [hen]), if_neg (by rw [hopen]; decide), if_pos hopen,
    if_pos hcool]

theorem markCompletedEntry_reset (e : ServiceEntry) (now : ℚ)
    (hnot : e.circuit_state ≠ "closed") :
    (markCompletedEntry e now).circuit_state = "closed" ∧
    (markCompletedEntry e now).fail_count = 0 ∧
    (markCompletedEntry e now).half_open_attempts = 0 := by
  unfold markCompletedEntry
  dsimp only
  rw [if_pos hnot]
  exact ⟨rfl, rfl, rfl⟩

/-- C1: with circuit breaking enabled (threshold `t`, cooldown `c`), after
`t` consecutive recorded failures from a closed circuit the state is `open`
with `circuit_opened_at` stamped by the last failure; `mayRun` returns
`false` (leaving the entry unchanged) while `now - opened_at < c`, and
`true` — transitioning the state to half-open — once the cooldown has
elapsed; and a successful execution (`mark_completed`) then resets the
circuit to `closed` with `fail_count = 0` and `half_open_attempts = 0`. -/
theorem circuit_breaker_state_machine
    (svc : ServiceConfig) (e : ServiceEntry) (times : List ℚ)
    (hen : svc.cb_enabled = true)
    (hclosed : e.circuit_state = "closed")
    (hfail : e.fail_count = 0)
    (hne : times ≠ [])
    (hlen : (times.length : ℤ) = svc.cb_threshold) :
    (times.foldl (failStep svc) e).circuit_state = "open" ∧
    (times.foldl (failStep svc) e).circuit_opened_at = times.getLast hne ∧
    (times.foldl (failStep svc) e).fail_count = svc.cb_threshold ∧
    (∀ now, now - (times.foldl (failStep svc) e).circuit_opened_at <
        (svc.cb_cooldown : ℚ) →
      mayRun svc (times.foldl (failStep svc) e) now =
        (false, times.foldl (failStep svc) e)) ∧
    (∀ now, (svc.cb_cooldown : ℚ) ≤
        now - (times.foldl (failStep svc) e).circuit_opened_at →
      mayRun svc (times.foldl (failStep svc) e) now =
        (true, { times.foldl (failStep svc) e with circuit_state := "half-open" }) ∧
      ∀ now2,
        (markCompletedEntry (mayRun svc (times.foldl (failStep svc) e) now).2 now2).circuit_state = "closed" ∧
        (markCompletedEntry (mayRun svc (times.foldl (failStep svc) e) now).2 now2).fail_count = 0 ∧
        (markCompletedEntry (mayRun svc (times.foldl (failStep svc) e) now).2 now2).half_open_attempts = 0) := by
  obtain ⟨g1, g2, g3, _⟩ := failStep_fold svc hen times e hclosed hne
    (by rw [hfail]; omega)
  refine ⟨g1, g2 hne, g3, ?_, ?_⟩
  · intro now hcool
    exact mayRun_open_blocked svc _ now hen g1 hcool
  · intro now hcool
    have hmr := mayRun_open_elapsed svc _ now hen g1 hcool
    refine ⟨hmr, ?_⟩
    intro now2
    have hho : (mayRun svc (times.foldl (failStep svc) e) now).2.circuit_state =
        "half-open" := by
      rw [hmr]
    exact markCompletedEntry_reset _ now2 (by rw [hho]; decide)

/-- C1 witness: threshold 2, cooldown 10; failures at t=1 and t=2 open the
circuit at 2; `mayRun` blocks at t=5 and promotes to half-open at t=20; a
success then closes the circuit. -/
theorem circuit_breaker_state_machine_witness :
    (([1, 2] : List ℚ).foldl (failStep cbSvc) {}).circuit_state = "open" ∧
    (([1, 2] : List ℚ).foldl (failStep cbSvc) {}).circuit_opened_at = 2 ∧
    mayRun cbSvc (([1, 2] : List ℚ).foldl (failStep cbSvc) {}) 5 =
      (false, ([1, 2] : List ℚ).foldl (failStep cbSvc) {}) ∧
    (markCompletedEntry
        (mayRun cbSvc (([1, 2] : List ℚ).foldl (failStep cbSvc) {}) 20).2 21).circuit_state = "closed" := by
  have h := circuit_breaker_state_machine cbSvc {} [1, 2] rfl rfl rfl
    (by decide) (by decide)
  have hop : (([1, 2] : List ℚ).foldl (failStep cbSvc) {}).circuit_opened_at = 2 := by
    rw [h.2.1]
    rfl
  refine ⟨h.1, hop, ?_, ?_⟩
  · refine h.2.2.2.1 5 ?_
    rw [hop]
    norm_num [cbSvc, ServiceConfig.cb_cooldown]
  · have h20 := h.2.2.2.2 20 (by rw [hop]; norm_num [cbSvc, ServiceConfig.cb_cooldown])
    exact (h20.2 21).1

/-! ### C8 — phase listing -/

theorem filter_orderedInsert_order (k : ℤ) (a : ServiceConfig) :
    ∀ l : List ServiceConfig,
      (List.orderedInsert ordLE a l).filter (fun s => s.order == k) =
        if a.order = k then a :: l.filter (fun s => s.order == k)
        else l.filter (fun s => s.order == k) := by
  intro l
  induction l with
  | nil =>
    by_cases hk : a.order = k
    · simp [List.orderedInsert, List.filter, hk]
    · simp only [List.orderedInsert, if_neg hk]
      have hb : (a.order == k) = false := by
        simp only [beq_eq_false_iff_ne, ne_eq]; exact hk
      simp [List.filter, hb]
  | cons b t ih =>
    by_cases hr : ordLE a b
    · rw [List.orderedInsert, if_pos hr]
      by_cases hk : a.order = k
      · have hb : (a.order == k) = true := by
          simp only [beq_iff_eq]; exact hk
        simp [List.filter_cons, hb, hk]
      · have hb : (a.order == k) = false := by
          simp only [beq_eq_false_iff_ne, ne_eq]; exact hk
        simp [List.filter_cons, hb, hk]
    · rw [List.orderedInsert, if_neg hr]
      have hblt : b.order < a.order := by
        unfold ordLE at hr
        omega
      by_cases hk : a.order = k
      · have hbb : (b.order == k) = false := by
          simp only [beq_eq_false_iff_ne, ne_eq]
          omega
        simp [List.filter_cons, hbb, ih, hk]
      · simp [List.filter_cons, ih, hk]

theorem filter_insertionSort_order (k : ℤ) :
    ∀ l : List ServiceConfig,
      (List.insertionSort ordLE l).filter (fun s => s.order == k) =
        l.filter (fun s => s.order == k) := by
  intro l
  induction l with
  | nil => rfl
  | cons a t ih =>
    rw [List.insertionSort, filter_orderedInsert_order k a, List.filter_cons]
    by_cases hk : a.order = k
    · have hb : (a.order == k) = true := by
        simp only [beq_iff_eq]; exact hk
      rw [if_pos hk, ih, hb]
      simp
    · have hb : (a.order == k) = false := by
        simp only [beq_eq_false_iff_ne, ne_eq]; exact hk
      rw [if_neg hk, ih, hb]
      simp

/-- C8: `get_phase_services(phase)` returns exactly the enabled services of
that phase — as a permutation of the filtered registry values — sorted
ascending by `order`, with ties broken by insertion order (for every order
value `k`, the `order = k` services appear exactly in registry/insertion
order); and the shutdown phase is dispatched in the reverse of that order
(descending `order`). -/
theorem get_phase_services_spec (services : List ServiceConfig) (phase : String) :
    ((mkRegistry services).get_phase_services phase).Perm
      (((mkRegistry services).services.map Prod.snd).filter
        (fun s => s.phase == phase && s.enabled)) ∧
    (∀ s ∈ (mkRegistry services).get_phase_services phase,
      s.phase = phase ∧ s.enabled = true) ∧
    ((mkRegistry services).get_phase_services phase).Sorted ordLE ∧
    (∀ k : ℤ,
      ((mkRegistry services).get_phase_services phase).filter
          (fun s => s.order == k) =
        (((mkRegistry services).services.map Prod.snd).filter
          (fun s => s.phase == phase && s.enabled)).filter
            (fun s => s.order == k)) ∧
    shutdownDispatchOrder (mkRegistry services) =
      ((mkRegistry services).get_phase_services "shutdown").reverse ∧
    (shutdownDispatchOrder (mkRegistry services)).Pairwise
      (fun a b => b.order ≤ a.order) := by
  have hsplit : ∀ ph : String,
      (mkRegistry services).get_phase_services ph =
        (List.insertionSort ordLE
          (((mkRegistry services).services.map Prod.snd).filter
            (fun s => s.phase == ph))).filter (fun s => s.enabled) := by
    intro ph
    rfl
  have hcollapse : ∀ ph : String,
      (((mkRegistry services).services.map Prod.snd).filter
          (fun s => s.phase == ph)).filter (fun s => s.enabled) =
        ((mkRegistry services).services.map Prod.snd).filter
          (fun s => s.phase == ph && s.enabled) := by
    intro ph
    rw [List.filter_filter]
    apply List.filter_congr
    intro s _
    rw [Bool.and_comm]
  have hperm : ∀ ph : String,
      ((mkRegistry services).get_phase_services ph).Perm
        (((mkRegistry services).services.map Prod.snd).filter
          (fun s => s.phase == ph && s.enabled)) := by
    intro ph
    rw [hsplit ph, ← hcollapse ph]
    exact (List.perm_insertionSort ordLE _).filter _
  have hsorted : ∀ ph : String,
      ((mkRegistry services).get_phase_services ph).Sorted ordLE := by
    intro ph
    rw [hsplit ph]
    exact (List.sorted_insertionSort ordLE _).sublist (List.filter_sublist _)
  refine ⟨hperm phase, ?_, hsorted phase, ?_, rfl, ?_⟩
  · intro s hs
    have hmem := (hperm phase).mem_iff.mp hs
    have hpred := List.of_mem_filter hmem
    simp only [Bool.and_eq_true, beq_iff_eq] at hpred
    exact hpred
  · intro k
    rw [hsplit phase, List.filter_filter, ← hcollapse phase, List.filter_filter]
    have hcomm : ∀ m : List ServiceConfig,
        m.filter (fun s => s.order == k && s.enabled) =
          (m.filter (fun s => s.order == k)).filter (fun s => s.enabled) := by
      intro m
      rw [List.filter_filter]
      apply List.filter_congr
      intro s _
      rw [Bool.and_comm]
    rw [show (fun s : ServiceConfig => s.order == k && s.enabled) =
        (fun s => (s.order == k : Bool) && s.enabled) from rfl] at *
    calc (List.insertionSort ordLE
            (((mkRegistry services).services.map Prod.snd).filter
              (fun s => s.phase == phase))).filter
          (fun s => s.order == k && s.enabled)
        = ((List.insertionSort ordLE
            (((mkRegistry services).services.map Prod.snd).filter
              (fun s => s.phase == phase))).filter
            (fun s => s.order == k)).filter (fun s => s.enabled) := hcomm _
      _ = ((((mkRegistry services).services.map Prod.snd).filter
            (fun s => s.phase == phase)).filter
            (fun s => s.order == k)).filter (fun s => s.enabled) := by
            rw [filter_insertionSort_order]
      _ = (((mkRegistry services).services.map Prod.snd).filter
            (fun s => s.phase == phase)).filter
            (fun s => s.order == k && s.enabled) := (hcomm _).symm
  · rw [show shutdownDispatchOrder (mkRegistry services) =
        ((mkRegistry services).get_phase_services "shutdown").reverse from rfl]
    rw [List.pairwise_reverse]
    exact hsorted "shutdown"

/-- C8 witness: two shutdown services (orders 10, 20) list in ascending order
and dispatch reversed. -/
theorem get_phase_services_spec_witness :
    (∀ s ∈ (mkRegistry shutdownSvcs).get_phase_services "shutdown",
      s.phase = "shutdown" ∧ s.enabled = true) ∧
    shutdownDispatchOrder (mkRegistry shutdownSvcs) =
      ((mkRegistry shutdownSvcs).get_phase_services "shutdown").reverse ∧
    ((mkRegistry shutdownSvcs).get_phase_services "shutdown").map
      ServiceConfig.id = ["first", "second"] ∧
    (shutdownDispatchOrder (mkRegistry shutdownSvcs)).map
      ServiceConfig.id = ["second", "first"] :=
  ⟨(get_phase_services_spec shutdownSvcs "shutdown").2.1,
   (get_phase_services_spec shutdownSvcs "shutdown").2.2.2.2.1,
   by decide, by decide⟩

end Wiggum
